import Mathlib

/-!
Verification of the exporttool repository (exporttool.py, scribl.py,
et_options.py) against its natural-language specification.

Python strings are embedded as `List Char`; Python exceptions are embedded
as the `Except String` monad (an uncaught exception is an `.error` value
that propagates); machine integers are `Int` (Python integers are
unbounded, so no wrap-around modelling is needed).
-/

set_option maxRecDepth 10000

/-- Python `s.split(sep)` for a one-character separator: no collapsing of
adjacent separators, `""` splits to `[""]`. -/
def splitOnChar (sep : Char) : List Char → List (List Char)
  | [] => [[]]
  | c :: cs =>
    match splitOnChar sep cs with
    | [] => [[]]
    | h :: t => if c = sep then [] :: h :: t else (c :: h) :: t

/-- Python negative indexing `l[-i]` (for `i ≥ 1`): the `i`-th element from
the end, raising `IndexError` when the list is too short. -/
def pyNegIdx (l : List α) (i : Nat) : Except String α :=
  if i = 0 then .error "IndexError"
  else
    match (l.reverse.drop (i - 1)).head? with
    | some x => .ok x
    | none => .error "IndexError"

/-- Decimal digits to a natural number. -/
def digitsToNat (s : List Char) : Nat :=
  s.foldl (fun n c => 10 * n + (c.toNat - 48)) 0

/-- Python `int(s)` on a token: an optional sign followed by at least one
decimal digit parses; anything else raises `ValueError`.  (The surrounding
whitespace and underscore forms Python also accepts never occur in the
filename tokens this program feeds to `int`.) -/
def pyInt (s : List Char) : Except String Int :=
  match s with
  | '-' :: rest =>
    if rest ≠ [] ∧ rest.all Char.isDigit then .ok (-(digitsToNat rest : Int))
    else .error "ValueError"
  | '+' :: rest =>
    if rest ≠ [] ∧ rest.all Char.isDigit then .ok (digitsToNat rest : Int)
    else .error "ValueError"
  | _ =>
    if s ≠ [] ∧ s.all Char.isDigit then .ok (digitsToNat s : Int)
    else .error "ValueError"

/-- `re.sub("\/[^\/]+$", "", file)` from `list_full_paths`: remove a final
`/`-plus-nonempty-run-of-non-slash suffix if one exists, otherwise leave
the string unchanged. -/
def stripLast (s : List Char) : List Char :=
  let r := s.reverse
  let pre := r.takeWhile (fun c => c ≠ '/')
  if pre.length = 0 then s
  else if (r.drop pre.length).head? = some '/' then (r.drop (pre.length + 1)).reverse
  else s

/-- `root.split("/")[-1:][0]`: the last `/`-separated component. -/
def lastComp (s : List Char) : List Char :=
  ((splitOnChar '/' s).reverse).headD []

/-- The per-file body of `exporttool.py::list_full_paths` (lines 109-127):
parse the epoch bounds out of the tsidx filename, evaluate the filter
condition with Python's left-to-right short-circuit (so `int(min_epoch)`
is only reached when `earliest <= int(max_epoch)` holds), and append the
bucket directory when the file passes. -/
def etProcessFile (earliest latest : Int) (buckets : List (List Char))
    (file : List Char) : Except String (List (List Char)) := do
  let parts := splitOnChar '/' file
  let tsidx ← pyNegIdx parts 1
  let tparts := splitOnChar '-' tsidx
  let maxEpochS ← pyNegIdx tparts 3
  let minEpochS ← pyNegIdx tparts 2
  let bucketName ← pyNegIdx parts 2
  let maxEpoch ← pyInt maxEpochS
  if earliest ≤ maxEpoch then
    let minEpoch ← pyInt minEpochS
    if latest ≥ minEpoch ∧ ¬ ("DISABLED".toList <:+: file)
        ∧ ¬ ("rb_".toList <+: bucketName) ∧ ¬ ("hot".toList <+: bucketName) then
      pure (buckets ++ [stripLast file])
    else
      pure buckets
  else
    pure buckets

/-- `exporttool.py::list_full_paths` (lines 98-128) over a given candidate
file list (the list produced either by the recursive `*.tsidx` glob over
`directory` or by stripping the `import_buckets` entries); returns the
deduplicated bucket list (`set(buckets)` in the source, membership is what
the callers use). An uncaught `ValueError`/`IndexError` from a malformed
filename propagates as `.error`. -/
def list_full_paths (earliest latest : Int) (files : List (List Char)) :
    Except String (List (List Char)) := do
  let buckets ← files.foldlM (etProcessFile earliest latest) []
  pure buckets.dedup

/-- The per-entry body of `scribl.py::list_full_paths` (lines 66-77): one
`(root, file)` pair from `os.walk`.  `maxEpoch` is the first `-`-token and
`minEpoch` the second; the filter is
`not (latest <= int(minEpoch) or earliest >= int(maxEpoch))` with Python
short-circuit, followed by the exclusion tests, and `root` is appended at
most once. -/
def scriblProcessEntry (earliest latest : Int) (buckets : List (List Char))
    (entry : List Char × List Char) : Except String (List (List Char)) :=
  let root := entry.1
  let file := entry.2
  if "tsidx".toList <:+: file then
    match splitOnChar '-' file with
    | [] => .error "unreachable"
    | maxEpochS :: rest =>
      match rest with
      | [] => .error "IndexError"
      | minEpochS :: _ => do
        let dirName0 := lastComp root
        let minEpoch ← pyInt minEpochS
        if latest ≤ minEpoch then
          pure buckets
        else do
          let maxEpoch ← pyInt maxEpochS
          if ¬ (earliest ≥ maxEpoch) ∧ ¬ ("DISABLED".toList <:+: root)
              ∧ ¬ ("rb_".toList <+: dirName0) ∧ ¬ ("hot_".toList <+: dirName0) then
            if root ∈ buckets then pure buckets else pure (buckets ++ [root])
          else
            pure buckets
  else
    pure buckets

/-- `scribl.py::list_full_paths` (lines 60-78) over the `(root, file)`
pairs that `os.walk(directory)` yields. -/
def scriblListFullPaths (earliest latest : Int)
    (entries : List (List Char × List Char)) : Except String (List (List Char)) :=
  entries.foldlM (scriblProcessEntry earliest latest) []

/-- `exporttool.py::index_name` (lines 89-96): split the configured path on
`os.sep`, drop empty parts, and return the second-to-last part, or `None`
when fewer than two parts remain. -/
def index_name (path : List Char) : Option (List Char) :=
  let path_parts := (splitOnChar '/' path).filter (fun part => part ≠ [])
  match path_parts.reverse with
  | _ :: x :: _ => some x
  | _ => none

deriving instance DecidableEq for Except

/-!
The record-extraction regular expression of `exporttool.py::record_format`
(line 70-74):

  `^(\d+)..source::(.*?)\",\"host::(.*?)\",\"sourcetype::(.*?)\",\"(.*?)\",\"_indextime::`

compiled with `re.DOTALL | re.MULTILINE` and applied with `re.search`.
The pattern is a fixed chain of tokens, embedded below as one small
backtracking matcher per token position: a greedy `(\d+)`, two arbitrary
characters, and literal/lazy-group alternations.  `re.search` with the
`^` anchor under MULTILINE tries the start of the string and then the
position after every newline, leftmost first.  Each matcher returns the
captured groups of its suffix of the pattern, or `none`.
-/

/-- A lazy group `(.*?)` followed by the continuation `f`: try the empty
capture first, then extend one character at a time (DOTALL: newlines are
captured too), exactly the backtracking order of the regex engine. -/
def lazyGroup (f : List Char → Option (List (List Char))) (acc : List Char) :
    List Char → Option (List (List Char))
  | [] =>
    match f [] with
    | some gs => some (acc.reverse :: gs)
    | none => none
  | c :: s =>
    match f (c :: s) with
    | some gs => some (acc.reverse :: gs)
    | none => lazyGroup f (c :: acc) s

/-- A greedy `(\d+)` followed by the continuation `f`: `dRev` is the
reversed not-yet-surrendered part of the maximal digit run; try the
longest capture first and give back one digit at a time. -/
def greedyDigits (f : List Char → Option (List (List Char))) :
    List Char → List Char → Option (List (List Char))
  | [], _ => none
  | c :: dRev, suffix =>
    match f suffix with
    | some gs => some ((c :: dRev).reverse :: gs)
    | none => greedyDigits f dRev (c :: suffix)

def srcLit : List Char := "source::".toList
def hostLit : List Char := "\",\"host::".toList
def stypeLit : List Char := "\",\"sourcetype::".toList
def quoteLit : List Char := "\",\"".toList
def itimeLit : List Char := "\",\"_indextime::".toList

/-- Pattern tail `\",\"_indextime::` — the final literal; the match leaves
the rest of the input unconsumed. -/
def mAfterRaw (s : List Char) : Option (List (List Char)) :=
  if itimeLit <+: s then some [] else none

/-- Pattern tail `(.*?)\",\"_indextime::` — capture group 5 (`raw`). -/
def mRaw (s : List Char) : Option (List (List Char)) :=
  lazyGroup mAfterRaw [] s

/-- Pattern tail `\",\"(.*?)\",\"_indextime::`. -/
def mAfterStype (s : List Char) : Option (List (List Char)) :=
  if quoteLit <+: s then mRaw (s.drop quoteLit.length) else none

/-- Pattern tail `(.*?)\",\"(.*?)\",\"_indextime::` — group 4 onwards. -/
def mStype (s : List Char) : Option (List (List Char)) :=
  lazyGroup mAfterStype [] s

/-- Pattern tail starting at `\",\"sourcetype::`. -/
def mAfterHost (s : List Char) : Option (List (List Char)) :=
  if stypeLit <+: s then mStype (s.drop stypeLit.length) else none

/-- Pattern tail `(.*?)\",\"sourcetype::...` — group 3 onwards. -/
def mHost (s : List Char) : Option (List (List Char)) :=
  lazyGroup mAfterHost [] s

/-- Pattern tail starting at `\",\"host::`. -/
def mAfterSource (s : List Char) : Option (List (List Char)) :=
  if hostLit <+: s then mHost (s.drop hostLit.length) else none

/-- Pattern tail `(.*?)\",\"host::...` — group 2 onwards. -/
def mSource (s : List Char) : Option (List (List Char)) :=
  lazyGroup mAfterSource [] s

/-- Pattern tail `..source::...` — two arbitrary characters (DOTALL), the
literal `source::`, then group 2 onwards. -/
def mAfterDigits (s : List Char) : Option (List (List Char)) :=
  match s with
  | _ :: _ :: s2 => if srcLit <+: s2 then mSource (s2.drop srcLit.length) else none
  | _ => none

/-- The whole pattern at one anchor position: greedy `(\d+)` then the rest. -/
def mStart (s : List Char) : Option (List (List Char)) :=
  greedyDigits mAfterDigits ((s.takeWhile Char.isDigit).reverse)
    (s.drop (s.takeWhile Char.isDigit).length)

/-- Scan for the next `^` anchor position (just after a newline) and try
the pattern there, leftmost position first. -/
def reSearchSkip : List Char → Option (List (List Char))
  | [] => none
  | c :: s =>
    if c = '\n' then
      match mStart s with
      | some gs => some gs
      | none => reSearchSkip s
    else reSearchSkip s

/-- `re.search(pattern, s, re.DOTALL | re.MULTILINE)`: try the pattern at
position 0, then after each newline. -/
def reSearch (s : List Char) : Option (List (List Char)) :=
  match mStart s with
  | some gs => some gs
  | none => reSearchSkip s

/-- The dictionary `record_format` builds: `time`, `source`, `host`,
`sourcetype`, `raw` from the five regex groups, and `index` from
`index_name(et_options["directory"])` (`index` is `None` when the
configured directory has fewer than two components). -/
structure StructuredRecord where
  time : List Char
  source : List Char
  host : List Char
  sourcetype : List Char
  raw : List Char
  index : Option (List Char)
deriving DecidableEq

/-- The parsing part of `exporttool.py::record_format` (lines 68-87): on a
regex match, the populated dictionary; on a failed match the handler
prints `result is None: ...` and the function then raises an uncaught
`UnboundLocalError` at `return json_record + "\n"` because `json_record`
was never assigned — embedded as `.error`. -/
def record_parse (directory cur_rec : List Char) : Except String StructuredRecord :=
  match reSearch cur_rec with
  | some (g1 :: g2 :: g3 :: g4 :: g5 :: _) =>
    .ok (StructuredRecord.mk g1 g2 g3 g4 g5 (index_name directory))
  | _ => .error "UnboundLocalError"

def hexDigit (n : Nat) : Char :=
  if n < 10 then Char.ofNat (48 + n) else Char.ofNat (87 + n)

def hex4 (n : Nat) : List Char :=
  [hexDigit (n / 4096 % 16), hexDigit (n / 256 % 16), hexDigit (n / 16 % 16), hexDigit (n % 16)]

/-- `\uXXXX` escapes of `json.dumps` (with its default `ensure_ascii`),
including surrogate pairs above the basic plane. -/
def uEscape (n : Nat) : List Char :=
  if n < 65536 then '\\' :: 'u' :: hex4 n
  else
    '\\' :: 'u' :: hex4 (55296 + (n - 65536) / 1024)
      ++ '\\' :: 'u' :: hex4 (56320 + (n - 65536) % 1024)

/-- Per-character escaping of `json.dumps` string values. -/
def jsonEscapeChar (c : Char) : List Char :=
  if c = '"' then ['\\', '"']
  else if c = '\\' then ['\\', '\\']
  else if c = '\n' then ['\\', 'n']
  else if c = '\r' then ['\\', 'r']
  else if c = '\t' then ['\\', 't']
  else if c.toNat = 8 then ['\\', 'b']
  else if c.toNat = 12 then ['\\', 'f']
  else if c.toNat < 32 ∨ c.toNat > 126 then uEscape c.toNat
  else [c]

def jsonStr (s : List Char) : List Char :=
  '"' :: (s.map jsonEscapeChar).flatten ++ ['"']

/-- `json.dumps(dict_record)` with the insertion order of `record_format`
and the default `", "` / `": "` separators. -/
def jsonDumps (r : StructuredRecord) : List Char :=
  "\x7b".toList
    ++ jsonStr "time".toList ++ ": ".toList ++ jsonStr r.time
    ++ ", ".toList ++ jsonStr "source".toList ++ ": ".toList ++ jsonStr r.source
    ++ ", ".toList ++ jsonStr "host".toList ++ ": ".toList ++ jsonStr r.host
    ++ ", ".toList ++ jsonStr "sourcetype".toList ++ ": ".toList ++ jsonStr r.sourcetype
    ++ ", ".toList ++ jsonStr "raw".toList ++ ": ".toList ++ jsonStr r.raw
    ++ ", ".toList ++ jsonStr "index".toList ++ ": ".toList
    ++ (match r.index with
        | some i => jsonStr i
        | none => "null".toList)
    ++ "\x7d".toList

/-- `exporttool.py::record_format` as a whole: the serialized JSON line
plus the trailing newline (`json.dumps(dict_record) + "\n"`), or the
uncaught `UnboundLocalError`. -/
def record_format (directory cur_rec : List Char) : Except String (List Char) :=
  match record_parse directory cur_rec with
  | .ok r => .ok (jsonDumps r ++ ['\n'])
  | .error e => .error e

/-- The fixed CSV header line assigned in `main`
(`'"_time",source,host,sourcetype,"_raw","_meta"'`). -/
def headerLine : List Char := "\"_time\",source,host,sourcetype,\"_raw\",\"_meta\"".toList

/-- The diagnostic marker filtered by both loops. -/
def diagMarker : List Char := "log-cmdline.cfg".toList

/-- `if header in line or "log-cmdline.cfg" in line: continue` — Python
substring membership. -/
def skipLine (line : List Char) : Bool :=
  decide (headerLine <:+: line) || decide (diagMarker <:+: line)

/-- Python `str.isdigit()`: non-empty and every character a digit.  (The
program only ever feeds ASCII here; the additional Unicode digit classes
Python accepts are irrelevant to its streams.) -/
def pyIsdigit (s : List Char) : Bool :=
  !s.isEmpty && s.all Char.isDigit

/-- The record-boundary test `line[0:10].isdigit()` of both output loops:
the slice keeps at most the first ten characters of the line (shorter
lines, which still carry their trailing newline, are kept whole). -/
def isBoundary (line : List Char) : Bool :=
  pyIsdigit (line.take 10)

/-- The raw-buffer view of the shared reassembly loop of
`exo_file_output` (lines 194-207) and `net_output` (lines 241-254): the
list of finalized record buffers, ignoring what `record_format` then does
with each.  `cur` is `current_rec`; an empty line breaks the loop; header
and diagnostic lines are discarded; a digit-prefixed line finalizes the
current buffer and starts a new one; any other line is appended; a
non-empty final buffer is flushed at end of stream. -/
def reassembleAux : List (List Char) → List Char → List (List Char)
  | [], cur => if cur = [] then [] else [cur]
  | l :: ls, cur =>
    if l = [] then (if cur = [] then [] else [cur])
    else if skipLine l then reassembleAux ls cur
    else if isBoundary l then
      if cur = [] then reassembleAux ls l else cur :: reassembleAux ls l
    else reassembleAux ls (cur ++ l)

/-- The reassembly loop started with an empty `current_rec`. -/
def reassemble (lines : List (List Char)) : List (List Char) :=
  reassembleAux lines []

/-- The value of `current_rec` when the loop leaves the line stream (the
buffer that the end-of-stream flush inspects). -/
def finalBuf : List (List Char) → List Char → List Char
  | [], cur => cur
  | l :: ls, cur =>
    if l = [] then cur
    else if skipLine l then finalBuf ls cur
    else if isBoundary l then finalBuf ls l
    else finalBuf ls (cur ++ l)

/-- The same loop with `record_format` applied at each finalization, as
`exo_file_output` writes and `net_output` sends: the first component is
the list of strings written/sent in order; the second component is `true`
when the uncaught `UnboundLocalError` of a failed `record_format` aborted
the loop (the enclosing `except` then swallows it after the remaining
lines and records of the task are lost). -/
def streamOutputs (directory : List Char) :
    List (List Char) → List Char → List (List Char) × Bool
  | [], cur =>
    if cur = [] then ([], false)
    else
      match record_format directory cur with
      | .ok out => ([out], false)
      | .error _ => ([], true)
  | l :: ls, cur =>
    if l = [] then
      (if cur = [] then ([], false)
       else
         match record_format directory cur with
         | .ok out => ([out], false)
         | .error _ => ([], true))
    else if skipLine l then streamOutputs directory ls cur
    else if isBoundary l then
      if cur = [] then streamOutputs directory ls l
      else
        match record_format directory cur with
        | .ok out =>
          let p := streamOutputs directory ls l
          (out :: p.1, p.2)
        | .error _ => ([], true)
    else streamOutputs directory ls (cur ++ l)

/-- The same loop at the level of parsed records (the dictionaries that
`record_format` serializes), with identical abort behaviour. -/
def streamRecords (directory : List Char) :
    List (List Char) → List Char → List StructuredRecord × Bool
  | [], cur =>
    if cur = [] then ([], false)
    else
      match record_parse directory cur with
      | .ok r => ([r], false)
      | .error _ => ([], true)
  | l :: ls, cur =>
    if l = [] then
      (if cur = [] then ([], false)
       else
         match record_parse directory cur with
         | .ok r => ([r], false)
         | .error _ => ([], true))
    else if skipLine l then streamRecords directory ls cur
    else if isBoundary l then
      if cur = [] then streamRecords directory ls l
      else
        match record_parse directory cur with
        | .ok r =>
          let p := streamRecords directory ls l
          (r :: p.1, p.2)
        | .error _ => ([], true)
    else streamRecords directory ls (cur ++ l)

/-- The strings `exo_file_output` (lines 170-211) writes to the output
file for a given subprocess line stream, and whether the task aborted. -/
def exo_file_output_writes (directory : List Char) (lines : List (List Char)) :
    List (List Char) × Bool :=
  streamOutputs directory lines []

/-- The byte strings `net_output` (lines 214-265) passes to
`net_connect.send`, one call per finalized record, and whether the task
aborted.  The integer that `send` returns (the number of bytes actually
accepted by the socket) is discarded by the source, so the call list never
depends on how much of each call was accepted. -/
def net_output_sends (directory : List Char) (lines : List (List Char)) :
    List (List Char) × Bool :=
  streamOutputs directory lines []

/-- Environment model of stream-socket delivery: `send` may accept any
prefix of its argument; `env i` is the number of bytes the socket accepts
on the `i`-th call, and the data of record `i` that actually reaches the
connection is the corresponding prefix of the `i`-th call. -/
def delivered (env : Nat → Nat) (calls : List (List Char)) : List (List Char) :=
  calls.mapIdx (fun i c => c.take (env i))

/-- `ssl` certificate verification modes used by the source. -/
inductive VerifyMode where
  | CERT_NONE
  | CERT_REQUIRED
deriving DecidableEq

/-- The observable verification state of an `ssl` context. -/
structure SSLContextState where
  verify_mode : VerifyMode
  check_hostname : Bool
deriving DecidableEq

/-- `ssl.create_default_context()`: verification on, hostname checking on. -/
def ssl_create_default_context : SSLContextState :=
  SSLContextState.mk VerifyMode.CERT_REQUIRED true

/-- The configuration dictionary of `et_options.py`. -/
structure ETOptions where
  splunk_home : List Char
  directory : List Char
  dest_host : List Char
  dest_port : Nat
  tls : Bool
  check_hostname : Bool
  import_buckets : List (List Char)
  num_streams : Nat
  logfile : List Char
  earliest : Int
  latest : Int
  bucket_name : Bool
  only_db : Bool
  file_out : Bool
  file_out_path : List Char
  file_out_type : List Char
  file_out_compress : Bool
deriving DecidableEq

/-- The default values written in `et_options.py` (lines 4-22). -/
def etOptionsDefault : ETOptions :=
  ETOptions.mk "/opt/splunk/".toList "/opt/splunk/var/lib/splunk/suricata/".toList
    "x-tractor".toList 10065 false false [] 2 "/tmp/splunk_to_tcp.log".toList
    0 9999999999 false false false "/data/logs/cribl/".toList "exo".toList true

/-- The TLS layer `net_output` (lines 222-232) builds before connecting:
when `opts.tls` holds, it takes `ssl.create_default_context()` and then
unconditionally assigns `context.verify_mode = ssl.CERT_NONE` and
`context.check_hostname = False`; no field of the configuration other
than `tls` is consulted (in particular `opts.check_hostname` is never
read).  `none` means the plain socket is used. -/
def net_output_tls (opts : ETOptions) : Option SSLContextState :=
  if opts.tls then some (SSLContextState.mk VerifyMode.CERT_NONE false)
  else none

/-- `exporttool.py::build_cmd_list` (lines 268-278): one fixed extraction
command per bucket; no transform stage of any kind is appended (the
function reads no configuration besides `splunk_home`). -/
def build_cmd_list (splunk_home : List Char) (buckets : List (List Char)) :
    List (List Char) :=
  buckets.map (fun bucket =>
    splunk_home ++ "/bin/splunk cmd exporttool ".toList ++ bucket
      ++ " /dev/stdout -csv ".toList)

/-- How far `exporttool.py::main` (lines 293-374) gets, as a function of
the window configuration and the discovered candidate files.  Discovery
runs first (line 316); the window sanity check (line 324) runs next and
calls `exit(1)` when `earliest < latest` fails; only after it (and the
interactive confirmation) does `build_cmd_list` feed the worker pool,
which is the only place output files or network connections are ever
created.  An uncaught discovery exception terminates the interpreter with
a traceback and a non-zero status. -/
inductive MainResult where
  | crashed (msg : String)
  | exited (code : Nat)
  | dispatched (cmds : List (List Char))
deriving DecidableEq

def mainFlow (earliest latest : Int) (files : List (List Char)) : MainResult :=
  match list_full_paths earliest latest files with
  | .error m => .crashed m
  | .ok buckets =>
    if earliest < latest then
      .dispatched (build_cmd_list "/opt/splunk/".toList buckets)
    else
      .exited 1

/-! Helper lemmas about the embedded string primitives. -/

theorem splitOnChar_ne_nil (sep : Char) (s : List Char) : splitOnChar sep s ≠ [] := by
  induction s with
  | nil => simp [splitOnChar]
  | cons c cs ih =>
    simp only [splitOnChar]
    split
    · simp
    · split <;> simp

theorem splitOnChar_of_not_mem {sep : Char} {s : List Char} (h : sep ∉ s) :
    splitOnChar sep s = [s] := by
  induction s with
  | nil => rfl
  | cons c cs ih =>
    have hc : ¬ c = sep := by rintro rfl; exact h (List.mem_cons_self _ _)
    have hcs : sep ∉ cs := fun hm => h (List.mem_cons_of_mem _ hm)
    simp only [splitOnChar, ih hcs]
    simp [hc]

theorem splitOnChar_append (sep : Char) (xs ys : List Char) :
    splitOnChar sep (xs ++ sep :: ys) = splitOnChar sep xs ++ splitOnChar sep ys := by
  induction xs with
  | nil =>
    simp only [List.nil_append, splitOnChar]
    cases h : splitOnChar sep ys with
    | nil => exact absurd h (splitOnChar_ne_nil sep ys)
    | cons h1 t => simp
  | cons c cs ih =>
    have hstep : (c :: cs) ++ sep :: ys = c :: (cs ++ sep :: ys) := rfl
    rw [hstep]
    simp only [splitOnChar]
    rw [ih]
    cases h : splitOnChar sep cs with
    | nil => exact absurd h (splitOnChar_ne_nil sep cs)
    | cons h1 t =>
      by_cases hc : c = sep <;> simp [hc]

theorem pyNegIdx_one (A : List α) (x : α) : pyNegIdx (A ++ [x]) 1 = .ok x := by
  simp [pyNegIdx, List.reverse_append]

theorem pyNegIdx_two (A : List α) (x y : α) : pyNegIdx (A ++ [x, y]) 2 = .ok x := by
  simp [pyNegIdx, List.reverse_append]

theorem pyNegIdx_three (A : List α) (x y z : α) : pyNegIdx (A ++ [x, y, z]) 3 = .ok x := by
  simp [pyNegIdx, List.reverse_append]

theorem takeWhile_append_all {p : Char → Bool} {A : List Char}
    (hA : ∀ c ∈ A, p c = true) {b : Char} (hb : p b = false) (B : List Char) :
    (A ++ b :: B).takeWhile p = A ∧ (A ++ b :: B).dropWhile p = b :: B := by
  induction A with
  | nil => simp [List.takeWhile, List.dropWhile, hb]
  | cons a as ih =>
    have ha : p a = true := hA a (List.mem_cons_self _ _)
    have has : ∀ c ∈ as, p c = true := fun c hc => hA c (List.mem_cons_of_mem _ hc)
    obtain ⟨ht, hd⟩ := ih has
    simp [List.takeWhile, List.dropWhile, ha, ht, hd]

theorem stripLast_append (xs : List Char) {ys : List Char} (hy : '/' ∉ ys)
    (hne : ys ≠ []) : stripLast (xs ++ '/' :: ys) = xs := by
  have hall : ∀ c ∈ ys.reverse, (decide (c ≠ '/')) = true := by
    intro c hc
    simp only [decide_eq_true_eq]
    rintro rfl
    exact hy (List.mem_reverse.mp hc)
  have hslash : (decide (('/' : Char) ≠ '/')) = false := by simp
  have hrev : (xs ++ '/' :: ys).reverse = ys.reverse ++ '/' :: xs.reverse := by
    simp
  obtain ⟨ht, hd⟩ := takeWhile_append_all hall hslash xs.reverse
  have hlen : ys.reverse.length ≠ 0 := by
    simp only [List.length_reverse]
    exact fun h0 => hne (List.eq_nil_of_length_eq_zero h0)
  simp only [stripLast, hrev, ht]
  rw [if_neg hlen]
  have hdrop : (ys.reverse ++ '/' :: xs.reverse).drop ys.reverse.length = '/' :: xs.reverse := by
    rw [List.drop_left]
  have hdrop2 : (ys.reverse ++ '/' :: xs.reverse).drop (ys.reverse.length + 1) = xs.reverse := by
    rw [← List.drop_drop, hdrop]
    simp
  rw [hdrop]
  have hcond : (('/' :: xs.reverse).head? = some '/') := rfl
  rw [if_pos hcond, hdrop2, List.reverse_reverse]

/-! Lemmas about the reassembly loop and the two sink loops. -/

/-- Once non-empty, `current_rec` stays non-empty for the rest of the loop. -/
theorem finalBuf_ne_nil (ls : List (List Char)) :
    ∀ cur : List Char, cur ≠ [] → finalBuf ls cur ≠ [] := by
  induction ls with
  | nil => intro cur h; simpa [finalBuf] using h
  | cons l ls ih =>
    intro cur h
    by_cases hl : l = []
    · simpa [finalBuf, if_pos hl] using h
    · by_cases hs : skipLine l = true
      · simp only [finalBuf, if_neg hl, if_pos hs]
        exact ih cur h
      · by_cases hb : isBoundary l = true
        · simp only [finalBuf, if_neg hl, if_neg hs, if_pos hb]
          exact ih l hl
        · simp only [finalBuf, if_neg hl, if_neg hs, if_neg hb]
          exact ih (cur ++ l) (by simp [h])

/-- End-of-stream flush: whenever the loop leaves the line stream with a
non-empty buffer, that buffer is the last record the loop finalized. -/
theorem reassembleAux_flush (ls : List (List Char)) :
    ∀ cur : List Char, finalBuf ls cur ≠ [] →
      (reassembleAux ls cur).getLast? = some (finalBuf ls cur) := by
  induction ls with
  | nil =>
    intro cur h
    simp only [finalBuf] at h
    simp [reassembleAux, finalBuf, h]
  | cons l ls ih =>
    intro cur h
    by_cases hl : l = []
    · simp only [finalBuf, if_pos hl] at h
      simp only [reassembleAux, finalBuf, if_pos hl]
      simp [h]
    · by_cases hs : skipLine l = true
      · simp only [finalBuf, if_neg hl, if_pos hs] at h
        simp only [reassembleAux, finalBuf, if_neg hl, if_pos hs]
        exact ih cur h
      · by_cases hb : isBoundary l = true
        · simp only [finalBuf, if_neg hl, if_neg hs, if_pos hb] at h
          by_cases hc : cur = []
          · simp only [reassembleAux, finalBuf, if_neg hl, if_neg hs, if_pos hb, if_pos hc]
            exact ih l h
          · simp only [reassembleAux, finalBuf, if_neg hl, if_neg hs, if_pos hb, if_neg hc]
            have htail := ih l h
            cases hx : reassembleAux ls l with
            | nil => rw [hx] at htail; simp at htail
            | cons y ys =>
              rw [List.getLast?_cons_cons]
              rw [hx] at htail
              exact htail
        · simp only [finalBuf, if_neg hl, if_neg hs, if_neg hb] at h
          simp only [reassembleAux, finalBuf, if_neg hl, if_neg hs, if_neg hb]
          exact ih (cur ++ l) h

/-- Every record `record_parse` produces carries
`index_name(et_options["directory"])` in its `index` field. -/
theorem record_parse_index {dir cur : List Char} {r : StructuredRecord}
    (h : record_parse dir cur = .ok r) : r.index = index_name dir := by
  unfold record_parse at h
  split at h
  · cases h; rfl
  · cases h

/-- Every record the per-task loop emits carries
`index_name(et_options["directory"])` in its `index` field, independent of
which bucket the stream came from. -/
theorem streamRecords_index (dir : List Char) (ls : List (List Char)) :
    ∀ cur r, r ∈ (streamRecords dir ls cur).1 → r.index = index_name dir := by
  induction ls with
  | nil =>
    intro cur r hr
    simp only [streamRecords] at hr
    by_cases hc : cur = []
    · rw [if_pos hc] at hr; simp at hr
    · rw [if_neg hc] at hr
      cases hp : record_parse dir cur with
      | ok x =>
        rw [hp] at hr
        simp at hr
        subst hr
        exact record_parse_index hp
      | error e => rw [hp] at hr; simp at hr
  | cons l ls ih =>
    intro cur r hr
    simp only [streamRecords] at hr
    by_cases hl : l = []
    · rw [if_pos hl] at hr
      by_cases hc : cur = []
      · rw [if_pos hc] at hr; simp at hr
      · rw [if_neg hc] at hr
        cases hp : record_parse dir cur with
        | ok x =>
          rw [hp] at hr
          simp at hr
          subst hr
          exact record_parse_index hp
        | error e => rw [hp] at hr; simp at hr
    · rw [if_neg hl] at hr
      by_cases hs : skipLine l = true
      · rw [if_pos hs] at hr; exact ih cur r hr
      · rw [if_neg hs] at hr
        by_cases hb : isBoundary l = true
        · rw [if_pos hb] at hr
          by_cases hc : cur = []
          · rw [if_pos hc] at hr; exact ih l r hr
          · rw [if_neg hc] at hr
            cases hp : record_parse dir cur with
            | ok x =>
              rw [hp] at hr
              simp only [List.mem_cons] at hr
              cases hr with
              | inl he => subst he; exact record_parse_index hp
              | inr ht => exact ih l r ht
            | error e => rw [hp] at hr; simp at hr
        · rw [if_neg hb] at hr
          exact ih (cur ++ l) r hr

/-- The strings the sink loop writes are exactly the newline-terminated
JSON serializations of the records it parses, one write/send per record,
with the same abort behaviour. -/
theorem streamOutputs_eq_map (dir : List Char) (ls : List (List Char)) :
    ∀ cur, streamOutputs dir ls cur
      = ((streamRecords dir ls cur).1.map (fun r => jsonDumps r ++ ['\n']),
         (streamRecords dir ls cur).2) := by
  induction ls with
  | nil =>
    intro cur
    simp only [streamOutputs, streamRecords, record_format]
    by_cases hc : cur = []
    · simp [hc]
    · rw [if_neg hc, if_neg hc]
      cases hp : record_parse dir cur <;> simp [hp]
  | cons l ls ih =>
    intro cur
    simp only [streamOutputs, streamRecords, record_format]
    by_cases hl : l = []
    · rw [if_pos hl, if_pos hl]
      by_cases hc : cur = []
      · simp [hc]
      · rw [if_neg hc, if_neg hc]
        cases hp : record_parse dir cur <;> simp [hp]
    · rw [if_neg hl, if_neg hl]
      by_cases hs : skipLine l = true
      · rw [if_pos hs, if_pos hs]; exact ih cur
      · rw [if_neg hs, if_neg hs]
        by_cases hb : isBoundary l = true
        · rw [if_pos hb, if_pos hb]
          by_cases hc : cur = []
          · rw [if_pos hc, if_pos hc]; exact ih l
          · rw [if_neg hc, if_neg hc]
            cases hp : record_parse dir cur with
            | ok x => simp [hp, ih l]
            | error e => simp [hp]
        · rw [if_neg hb, if_neg hb]
          exact ih (cur ++ l)

/-! Characterization of the per-file discovery decision, for a candidate
file of the standard shape `<dir>/<bucket>/<max>-<min>-<id>` with numeric
time tokens and no exclusion marker. -/

theorem etProcessFile_char
    (earliest latest maxE minE : Int)
    (dirPart bname maxS minS idPart : List Char) (buckets : List (List Char))
    (hmax : pyInt maxS = .ok maxE) (hmin : pyInt minS = .ok minE)
    (hdM : '-' ∉ maxS) (hdN : '-' ∉ minS) (hdI : '-' ∉ idPart)
    (hsB : '/' ∉ bname) (hsM : '/' ∉ maxS) (hsN : '/' ∉ minS) (hsI : '/' ∉ idPart)
    (hdis : ¬ ("DISABLED".toList <:+:
      (dirPart ++ '/' :: bname ++ '/' :: (maxS ++ '-' :: minS ++ '-' :: idPart))))
    (hrb : ¬ ("rb_".toList <+: bname)) (hhot : ¬ ("hot".toList <+: bname)) :
    etProcessFile earliest latest buckets
      (dirPart ++ '/' :: bname ++ '/' :: (maxS ++ '-' :: minS ++ '-' :: idPart))
      = .ok (if earliest ≤ maxE ∧ latest ≥ minE
             then buckets ++ [dirPart ++ '/' :: bname] else buckets) := by
  have hMne : maxS ≠ [] := by
    intro h0
    rw [h0] at hmax
    simp [pyInt] at hmax
  have hTs : '/' ∉ (maxS ++ '-' :: minS ++ '-' :: idPart) := by
    intro hm
    rcases List.mem_append.mp hm with h | h
    · rcases List.mem_append.mp h with h | h
      · exact hsM h
      · rcases List.mem_cons.mp h with h | h
        · exact absurd h (by decide)
        · exact hsN h
    · rcases List.mem_cons.mp h with h | h
      · exact absurd h (by decide)
      · exact hsI h
  have hTne : (maxS ++ '-' :: minS ++ '-' :: idPart) ≠ [] := by
    cases maxS <;> simp
  have hfile : splitOnChar '/'
      (dirPart ++ '/' :: bname ++ '/' :: (maxS ++ '-' :: minS ++ '-' :: idPart))
      = splitOnChar '/' dirPart ++ [bname, maxS ++ '-' :: minS ++ '-' :: idPart] := by
    rw [splitOnChar_append, splitOnChar_append, splitOnChar_of_not_mem hsB,
        splitOnChar_of_not_mem hTs]
    simp
  have h1 : pyNegIdx (splitOnChar '/'
      (dirPart ++ '/' :: bname ++ '/' :: (maxS ++ '-' :: minS ++ '-' :: idPart))) 1
      = .ok (maxS ++ '-' :: minS ++ '-' :: idPart) := by
    rw [hfile, show splitOnChar '/' dirPart ++ [bname, maxS ++ '-' :: minS ++ '-' :: idPart]
        = (splitOnChar '/' dirPart ++ [bname]) ++ [maxS ++ '-' :: minS ++ '-' :: idPart] by simp]
    exact pyNegIdx_one _ _
  have h2 : pyNegIdx (splitOnChar '/'
      (dirPart ++ '/' :: bname ++ '/' :: (maxS ++ '-' :: minS ++ '-' :: idPart))) 2
      = .ok bname := by
    rw [hfile]
    exact pyNegIdx_two _ _ _
  have htparts : splitOnChar '-' (maxS ++ '-' :: minS ++ '-' :: idPart)
      = [maxS, minS, idPart] := by
    rw [splitOnChar_append, splitOnChar_append, splitOnChar_of_not_mem hdM,
        splitOnChar_of_not_mem hdN, splitOnChar_of_not_mem hdI]
    rfl
  have h3 : pyNegIdx (splitOnChar '-' (maxS ++ '-' :: minS ++ '-' :: idPart)) 3
      = .ok maxS := by rw [htparts]; rfl
  have h4 : pyNegIdx (splitOnChar '-' (maxS ++ '-' :: minS ++ '-' :: idPart)) 2
      = .ok minS := by rw [htparts]; rfl
  have hstrip : stripLast
      (dirPart ++ '/' :: bname ++ '/' :: (maxS ++ '-' :: minS ++ '-' :: idPart))
      = dirPart ++ '/' :: bname := by
    rw [show dirPart ++ '/' :: bname ++ '/' :: (maxS ++ '-' :: minS ++ '-' :: idPart)
        = (dirPart ++ '/' :: bname) ++ '/' :: (maxS ++ '-' :: minS ++ '-' :: idPart) by simp]
    exact stripLast_append _ hTs hTne
  simp only [etProcessFile, h1, h2, h3, h4, hmax, hmin, hstrip, Bind.bind, Except.bind]
  by_cases hE : earliest ≤ maxE <;> by_cases hL : latest ≥ minE
  · rw [if_pos hE, if_pos ⟨hL, hdis, hrb, hhot⟩, if_pos ⟨hE, hL⟩]
    rfl
  · rw [if_pos hE, if_neg (fun hc => hL hc.1), if_neg (fun hc => hL hc.2)]
    rfl
  · rw [if_neg hE, if_neg (fun hc => hE hc.1)]
    rfl
  · rw [if_neg hE, if_neg (fun hc => hE hc.1)]
    rfl

theorem scriblProcessEntry_char
    (earliest latest maxE minE : Int)
    (dirPart bname maxS minS idPart : List Char) (buckets : List (List Char))
    (hmax : pyInt maxS = .ok maxE) (hmin : pyInt minS = .ok minE)
    (hdM : '-' ∉ maxS) (hdN : '-' ∉ minS)
    (hsB : '/' ∉ bname)
    (hts : "tsidx".toList <:+: idPart)
    (hdis : ¬ ("DISABLED".toList <:+: (dirPart ++ '/' :: bname)))
    (hrb : ¬ ("rb_".toList <+: bname)) (hhot : ¬ ("hot_".toList <+: bname))
    (hroot : (dirPart ++ '/' :: bname) ∉ buckets) :
    scriblProcessEntry earliest latest buckets
      (dirPart ++ '/' :: bname, maxS ++ '-' :: minS ++ '-' :: idPart)
      = .ok (if latest > minE ∧ earliest < maxE
             then buckets ++ [dirPart ++ '/' :: bname] else buckets) := by
  have htsF : "tsidx".toList <:+: (maxS ++ '-' :: minS ++ '-' :: idPart) := by
    refine hts.trans (List.IsSuffix.isInfix ?_)
    exact ⟨maxS ++ '-' :: minS ++ ['-'], by simp⟩
  have hsplit : splitOnChar '-' (maxS ++ '-' :: minS ++ '-' :: idPart)
      = maxS :: minS :: splitOnChar '-' idPart := by
    rw [splitOnChar_append, splitOnChar_append, splitOnChar_of_not_mem hdM,
        splitOnChar_of_not_mem hdN]
    rfl
  have hlast : lastComp (dirPart ++ '/' :: bname) = bname := by
    unfold lastComp
    rw [splitOnChar_append, splitOnChar_of_not_mem hsB]
    simp
  simp only [scriblProcessEntry, if_pos htsF, hsplit, hlast, hmin, hmax,
    Bind.bind, Except.bind]
  by_cases hL : latest ≤ minE
  · rw [if_pos hL, if_neg (fun hc => absurd hc.1 (by omega))]
    rfl
  · rw [if_neg hL]
    by_cases hEa : earliest ≥ maxE
    · rw [if_neg (fun hc => hc.1 hEa), if_neg (fun hc => absurd hc.2 (by omega))]
      rfl
    · rw [if_pos ⟨hEa, hdis, hrb, hhot⟩, if_neg hroot, if_pos ⟨by omega, by omega⟩]
      rfl

/-! Concrete scenario inputs shared by the claim theorems. -/

/-- A well-formed extraction output line (first record of the scenarios). -/
def sampleLine1 : List Char :=
  "1000000000,\"source::s1\",\"host::h1\",\"sourcetype::t1\",\"hello\",\"_indextime::1\"\n".toList

/-- A well-formed extraction output line (second record). -/
def sampleLine2 : List Char :=
  "1000000001,\"source::s2\",\"host::h2\",\"sourcetype::t2\",\"world\",\"_indextime::2\"\n".toList

/-- The configured `et_options["directory"]` of the scenarios. -/
def sampleDir : List Char := "/a/b/idx1/".toList

/-- The single synthetic bucket of the scenarios, lying under `sampleDir`. -/
def sampleBucket : List Char := "/a/b/idx1/db_1".toList

/-- A well-formed candidate data file for discovery. -/
def goodTsidxFile : List Char := "idx/bkt1/2000000000-1000000000-7.tsidx".toList

/-- A candidate data file whose time tokens are non-numeric. -/
def badTsidxFile : List Char := "idx/bkt2/bad-tokens-x.tsidx".toList

/-! The claim theorems. -/

/-- C1 (counterexample): a candidate unit with bounds
`(min, max) = (1000000000, 2000000000)` and the query window
`[2000000000, 2500000000]` satisfies `earliest <= max_time` and
`latest >= min_time` (so the claim says discovery selects it), yet
`scribl.py`'s discovery — one of the two discovery implementations the
claim covers — rejects it, because its filter
`not (latest <= int(minEpoch) or earliest >= int(maxEpoch))` is strict at
both bounds. -/
theorem C1_counterexample :
    ((2000000000 : Int) ≤ 2000000000 ∧ (2500000000 : Int) ≥ 1000000000)
    ∧ scriblListFullPaths 2000000000 2500000000
        [("idx/db_1".toList, "2000000000-1000000000-7.tsidx".toList)] = .ok [] := by
  refine ⟨⟨by decide, by decide⟩, by decide⟩

/-- C1 (amended): for every query window and every candidate unit of the
standard shape (numeric time tokens, no exclusion marker),
`exporttool.py`'s discovery selects the unit iff
`earliest <= max_time AND latest >= min_time` (inclusive at both bounds),
while `scribl.py`'s discovery selects it iff
`latest > min_time AND earliest < max_time` (strict at both bounds): a
unit touching the window only at a bound is selected by the former and
rejected by the latter. -/
theorem C1_amended
    (earliest latest maxE minE : Int)
    (dirPart bname maxS minS idPart : List Char)
    (hmax : pyInt maxS = .ok maxE) (hmin : pyInt minS = .ok minE)
    (hdM : '-' ∉ maxS) (hdN : '-' ∉ minS) (hdI : '-' ∉ idPart)
    (hsB : '/' ∉ bname) (hsM : '/' ∉ maxS) (hsN : '/' ∉ minS) (hsI : '/' ∉ idPart)
    (hts : "tsidx".toList <:+: idPart)
    (hdis : ¬ ("DISABLED".toList <:+:
      (dirPart ++ '/' :: bname ++ '/' :: (maxS ++ '-' :: minS ++ '-' :: idPart))))
    (hrb : ¬ ("rb_".toList <+: bname)) (hhot : ¬ ("hot".toList <+: bname)) :
    (list_full_paths earliest latest
        [dirPart ++ '/' :: bname ++ '/' :: (maxS ++ '-' :: minS ++ '-' :: idPart)]
      = .ok (if earliest ≤ maxE ∧ latest ≥ minE
             then [dirPart ++ '/' :: bname] else []))
    ∧ (scriblListFullPaths earliest latest
        [(dirPart ++ '/' :: bname, maxS ++ '-' :: minS ++ '-' :: idPart)]
      = .ok (if latest > minE ∧ earliest < maxE
             then [dirPart ++ '/' :: bname] else [])) := by
  constructor
  · have h := etProcessFile_char earliest latest maxE minE dirPart bname maxS minS idPart []
      hmax hmin hdM hdN hdI hsB hsM hsN hsI hdis hrb hhot
    simp only [list_full_paths, List.foldlM, h, Bind.bind, Except.bind]
    have hd1 : ([dirPart ++ '/' :: bname] : List (List Char)).dedup
        = [dirPart ++ '/' :: bname] := by
      rw [List.dedup_cons_of_not_mem (by simp), List.dedup_nil]
    by_cases hC : earliest ≤ maxE ∧ latest ≥ minE
    · rw [if_pos hC, if_pos hC]
      simp only [List.nil_append]
      show Except.ok ([dirPart ++ '/' :: bname].dedup)
        = Except.ok [dirPart ++ '/' :: bname]
      rw [hd1]
    · rw [if_neg hC, if_neg hC]
      rfl
  · have hdis2 : ¬ ("DISABLED".toList <:+: (dirPart ++ '/' :: bname)) := by
      intro hmem
      exact hdis (hmem.trans (List.IsPrefix.isInfix
        ⟨'/' :: (maxS ++ '-' :: minS ++ '-' :: idPart), rfl⟩))
    have hhp : ("hot".toList : List Char) <+: "hot_".toList := ⟨['_'], rfl⟩
    have hhot2 : ¬ ("hot_".toList <+: bname) := fun hp => hhot (hhp.trans hp)
    have h := scriblProcessEntry_char earliest latest maxE minE dirPart bname maxS minS idPart []
      hmax hmin hdM hdN hsB hts hdis2 hrb hhot2 (by simp)
    simp only [scriblListFullPaths, List.foldlM, h, Bind.bind, Except.bind]
    rfl

/-- C1 (witness): the amended characterization evaluated on the concrete
unit `idx/db_1/2000000000-1000000000-7.tsidx` and the window
`[0, 9999999999]`. -/
theorem C1_amended_wit :
    (list_full_paths 0 9999999999
        ["idx".toList ++ '/' :: "db_1".toList ++ '/' ::
          ("2000000000".toList ++ '-' :: "1000000000".toList ++ '-' :: "7.tsidx".toList)]
      = .ok (if (0 : Int) ≤ 2000000000 ∧ (9999999999 : Int) ≥ 1000000000
             then ["idx".toList ++ '/' :: "db_1".toList] else []))
    ∧ (scriblListFullPaths 0 9999999999
        [("idx".toList ++ '/' :: "db_1".toList,
          "2000000000".toList ++ '-' :: "1000000000".toList ++ '-' :: "7.tsidx".toList)]
      = .ok (if (9999999999 : Int) > 1000000000 ∧ (0 : Int) < 2000000000
             then ["idx".toList ++ '/' :: "db_1".toList] else [])) :=
  C1_amended 0 9999999999 2000000000 1000000000 "idx".toList "db_1".toList
    "2000000000".toList "1000000000".toList "7.tsidx".toList
    (by decide) (by decide) (by decide) (by decide) (by decide) (by decide)
    (by decide) (by decide) (by decide) (by decide) (by decide) (by decide) (by decide)

/-- C2 (counterexample): on the synthetic stream — each line carrying the
trailing newline with which the loop reads it from the subprocess — the
reassembler's finalized buffers are not the claim's
`"1000000000,A\ncont-A-1"` / `"1000000001,B"`: each buffer retains the
trailing newline of its final line. -/
theorem C2_counterexample :
    reassemble ["1000000000,A\n".toList, "cont-A-1\n".toList, "1000000001,B\n".toList]
      ≠ ["1000000000,A\ncont-A-1".toList, "1000000001,B".toList] := by
  decide

/-- C2 (amended): on the synthetic stream the reassembler emits exactly
two records, with buffered payloads `"1000000000,A\ncont-A-1\n"` and
`"1000000001,B\n"` — the boundary falls exactly at the next digit-prefixed
line, and each physical line keeps its trailing newline; and for every
stream that ends mid-record (a non-empty buffer remains when the lines run
out), the final buffered record is still emitted, as the last record of
the task. -/
theorem C2_amended :
    (reassemble ["1000000000,A\n".toList, "cont-A-1\n".toList, "1000000001,B\n".toList]
      = ["1000000000,A\ncont-A-1\n".toList, "1000000001,B\n".toList])
    ∧ ∀ (lines : List (List Char)) (cur : List Char), finalBuf lines cur ≠ [] →
        (reassembleAux lines cur).getLast? = some (finalBuf lines cur) :=
  ⟨by decide, fun lines cur h => reassembleAux_flush lines cur h⟩

/-- C2 (witness): the end-of-stream flush of the amended claim evaluated
on a concrete stream that ends mid-record. -/
theorem C2_amended_wit :
    (reassembleAux ["1000000000,A\n".toList, "cont-A-1\n".toList] []).getLast?
      = some (finalBuf ["1000000000,A\n".toList, "cont-A-1\n".toList] []) :=
  C2_amended.2 ["1000000000,A\n".toList, "cont-A-1\n".toList] [] (by decide)

/-- C3: a buffered record that fails the extraction pattern does not
merely produce a warning — `record_format` catches the match failure,
prints, and then raises an uncaught `UnboundLocalError` at
`return json_record + "\n"` (`json_record` is only assigned when the
pattern matched), which the sink loop's enclosing `except` catches OUTSIDE
the line loop: with the malformed record `"1000000000,A\ncont-A-1\n"`
buffered and a well-formed record following it in the same stream, nothing
at all is emitted and the rest of the task's stream is abandoned, although
the following record on its own parses fine.  The claim (and the code's
own `except` handler) intend the failure to be per-record. -/
theorem C3_evaluation :
    record_format sampleDir "1000000000,A\ncont-A-1\n".toList = .error "UnboundLocalError"
    ∧ streamOutputs sampleDir
        ["1000000000,A\n".toList, "cont-A-1\n".toList, sampleLine1] [] = ([], true)
    ∧ record_parse sampleDir sampleLine1
      = .ok (StructuredRecord.mk "1000000000".toList "s1".toList "h1".toList
          "t1".toList "hello".toList (some "b".toList)) :=
  ⟨by decide, by decide, by decide⟩

/-- C4 (counterexample): with the configured directory `/a/b/idx1/` and
the single synthetic bucket `/a/b/idx1/db_1` under it, the emitted
record's `index` field is `index_name` of the CONFIGURED DIRECTORY
(`"b"`), which differs from the index name derived the same way from the
owning bucket's path (`"idx1"`). -/
theorem C4_counterexample :
    (streamRecords sampleDir [sampleLine1] []).1.map StructuredRecord.index
      = [some "b".toList]
    ∧ index_name sampleBucket = some "idx1".toList
    ∧ some "b".toList ≠ some "idx1".toList :=
  ⟨by decide, by decide, by decide⟩

/-- C4 (amended): every emitted record's `index` field equals
`index_name(et_options["directory"])` — one constant per run, derived
from the globally configured root directory, not from the record's owning
bucket; in particular, in JSON file mode with a single synthetic bucket,
the output holds exactly two JSON lines and both records carry that
constant. -/
theorem C4_amended :
    (∀ (dir : List Char) (lines : List (List Char)) (r : StructuredRecord),
        r ∈ (streamRecords dir lines []).1 → r.index = index_name dir)
    ∧ (streamOutputs sampleDir [sampleLine1, sampleLine2] []).1.length = 2
    ∧ (streamRecords sampleDir [sampleLine1, sampleLine2] []).1.map StructuredRecord.index
      = [index_name sampleDir, index_name sampleDir] :=
  ⟨fun dir lines r hr => streamRecords_index dir lines [] r hr, by decide, by decide⟩

/-- C4 (witness): the amended per-record law evaluated at the concrete
record the scenario stream emits. -/
theorem C4_amended_wit :
    (StructuredRecord.mk "1000000000".toList "s1".toList "h1".toList "t1".toList
        "hello".toList (some "b".toList)).index = index_name sampleDir :=
  C4_amended.1 sampleDir [sampleLine1]
    (StructuredRecord.mk "1000000000".toList "s1".toList "h1".toList "t1".toList
      "hello".toList (some "b".toList)) (by decide)

/-- C5 (counterexample): the sink makes exactly one `send` call for the
record and discards the count that `send` returns, so in an environment
where the socket accepts zero bytes of the call, nothing of the non-empty
encoded record reaches the connection and no further call retries it —
the "retrying partial writes until the full encoded record has been
flushed" half of the claim fails. -/
theorem C5_counterexample :
    (net_output_sends sampleDir [sampleLine1]).1.length = 1
    ∧ delivered (fun _ => 0) (net_output_sends sampleDir [sampleLine1]).1 = [[]]
    ∧ (net_output_sends sampleDir [sampleLine1]).1 ≠ [[]] :=
  ⟨by decide, by decide, by decide⟩

/-- C5 (amended): `net_output` serializes each record it parses to a
single newline-terminated JSON line (`json.dumps(dict) + "\n"`) and
performs exactly one `send` call per record — its call list is exactly
the parsed records mapped through that serialization — but the value
`send` returns is ignored, so partial writes are never retried. -/
theorem C5_amended (dir : List Char) (lines : List (List Char)) :
    (net_output_sends dir lines).1
      = (streamRecords dir lines []).1.map (fun r => jsonDumps r ++ ['\n'])
    ∧ (net_output_sends dir lines).2 = (streamRecords dir lines []).2 := by
  unfold net_output_sends
  rw [streamOutputs_eq_map dir lines []]
  exact ⟨rfl, rfl⟩

/-- The configuration of `et_options.py` with TLS enabled and hostname
verification requested. -/
def etOptionsTLSVerify : ETOptions :=
  ETOptions.mk "/opt/splunk/".toList "/opt/splunk/var/lib/splunk/suricata/".toList
    "x-tractor".toList 10065 true true [] 2 "/tmp/splunk_to_tcp.log".toList
    0 9999999999 false false false "/data/logs/cribl/".toList "exo".toList true

/-- C6: hostname verification is not controlled by the configuration's
`check_hostname` flag: with TLS enabled and `check_hostname = True` in the
options, the TLS layer `net_output` builds still has
`verify_mode = CERT_NONE` and `check_hostname = False` — the source
assigns both unconditionally after `ssl.create_default_context()` and
never reads `et_options["check_hostname"]`, although `et_options.py`
documents that flag as controlling certificate hostname checking. -/
theorem C6_evaluation :
    etOptionsTLSVerify.tls = true
    ∧ etOptionsTLSVerify.check_hostname = true
    ∧ net_output_tls etOptionsTLSVerify
      = some (SSLContextState.mk VerifyMode.CERT_NONE false)
    ∧ ssl_create_default_context
      = SSLContextState.mk VerifyMode.CERT_REQUIRED true :=
  ⟨rfl, rfl, rfl, rfl⟩

/-- C7 (counterexample): with one well-formed and one malformed candidate
file, discovery does not skip the malformed file and return the bucket of
the well-formed one — `int("bad")` raises an uncaught `ValueError` and
the whole discovery call aborts. -/
theorem C7_counterexample :
    list_full_paths 0 9999999999 [goodTsidxFile, badTsidxFile] = .error "ValueError"
    ∧ (Except.error "ValueError"
        ≠ (Except.ok ["idx/bkt1".toList] : Except String (List (List Char)))) :=
  ⟨by decide, by decide⟩

/-- C7 (amended): a data file whose time tokens are non-numeric makes
`int()` raise an uncaught `ValueError` inside `list_full_paths`, for
every query window: discovery aborts as a whole instead of skipping the
file, and no bucket set is returned — while the well-formed file alone
yields its bucket. -/
theorem C7_amended :
    (∀ earliest latest : Int,
      list_full_paths earliest latest [badTsidxFile, goodTsidxFile] = .error "ValueError")
    ∧ list_full_paths 0 9999999999 [goodTsidxFile] = .ok ["idx/bkt1".toList] :=
  ⟨fun _ _ => rfl, by decide⟩

/-- C8: with `earliest >= latest` the run never reaches task dispatch:
discovery runs first, then the window sanity check hits `exit(1)`
(non-zero status) — or discovery itself already crashed, also a non-zero
interpreter exit — and since output files and network connections are
created only inside dispatched tasks (`run_cmd_send_data`), none are
created. -/
theorem C8_window_abort (earliest latest : Int) (files : List (List Char))
    (h : latest ≤ earliest) :
    (∀ cmds, mainFlow earliest latest files ≠ .dispatched cmds)
    ∧ (mainFlow earliest latest files = .exited 1
       ∨ ∃ msg, mainFlow earliest latest files = .crashed msg) := by
  have hval : mainFlow earliest latest files = .exited 1
      ∨ ∃ msg, mainFlow earliest latest files = .crashed msg := by
    unfold mainFlow
    cases hd : list_full_paths earliest latest files with
    | error m => exact Or.inr ⟨m, rfl⟩
    | ok buckets =>
      have hlt : ¬ earliest < latest := by omega
      exact Or.inl (if_neg hlt)
  refine ⟨fun cmds hc => ?_, hval⟩
  rcases hval with h1 | ⟨m, h2⟩
  · rw [h1] at hc
    exact MainResult.noConfusion hc
  · rw [h2] at hc
    exact MainResult.noConfusion hc

/-- C8 (witness): the abort law evaluated at the spec's concrete window
`earliest = 100, latest = 50` with no candidate files. -/
theorem C8_window_abort_wit :
    (∀ cmds, mainFlow 100 50 [] ≠ .dispatched cmds)
    ∧ (mainFlow 100 50 [] = .exited 1 ∨ ∃ msg, mainFlow 100 50 [] = .crashed msg) :=
  C8_window_abort 100 50 [] (by decide)

/-- The configuration of `et_options.py` with bucket-name tagging
requested. -/
def etOptionsBucketTag : ETOptions :=
  ETOptions.mk "/opt/splunk/".toList "/opt/splunk/var/lib/splunk/suricata/".toList
    "x-tractor".toList 10065 false false [] 2 "/tmp/splunk_to_tcp.log".toList
    0 9999999999 true false false "/data/logs/cribl/".toList "exo".toList true

/-- C9: no command builder in the source reads the `bucket_name` option:
`build_cmd_list` emits the bare extraction command for every bucket, with
no `"bucket::<name>"` transform stage, whether or not the documented
`et_options.py` flag is set — the function consults nothing but
`splunk_home` and the bucket path, so the command is identical under
`etOptionsBucketTag` (flag on) and the default (flag off). -/
theorem C9_evaluation :
    etOptionsBucketTag.bucket_name = true
    ∧ build_cmd_list "/opt/splunk/".toList ["dir/idx1/db_1".toList]
      = ["/opt/splunk//bin/splunk cmd exporttool dir/idx1/db_1 /dev/stdout -csv ".toList]
    ∧ ¬ ("bucket::".toList <:+:
        "/opt/splunk//bin/splunk cmd exporttool dir/idx1/db_1 /dev/stdout -csv ".toList) :=
  ⟨rfl, by decide, by decide⟩

/-- C10: the record-boundary test is `line[0:10].isdigit()` on the line
text that still carries its trailing newline, so every line with fewer
than ten characters before the newline — even one consisting entirely of
digits — is never treated as the start of a new record: the ten-character
slice retains the newline, `isdigit` is false, neither skip marker can fit
in so short a line, and the loop appends the line to the current buffer as
a continuation. -/
theorem C10_short_line (s : List Char) (h : s.length < 10) :
    isBoundary (s ++ ['\n']) = false
    ∧ skipLine (s ++ ['\n']) = false
    ∧ ∀ (cur : List Char) (ls : List (List Char)),
        reassembleAux ((s ++ ['\n']) :: ls) cur
          = reassembleAux ls (cur ++ (s ++ ['\n'])) := by
  have hlen : (s ++ ['\n']).length ≤ 10 := by
    simp only [List.length_append, List.length_cons, List.length_nil]
    omega
  have hb : isBoundary (s ++ ['\n']) = false := by
    unfold isBoundary pyIsdigit
    rw [List.take_of_length_le hlen]
    have hall : ((s ++ ['\n']).all Char.isDigit) = false := by
      refine List.all_eq_false.mpr ⟨'\n', by simp, by decide⟩
    rw [hall, Bool.and_false]
  have hsk : skipLine (s ++ ['\n']) = false := by
    unfold skipLine
    have h1 : ¬ (headerLine <:+: (s ++ ['\n'])) := by
      intro hin
      have hle := hin.length_le
      have hh : headerLine.length = 45 := by decide
      rw [hh] at hle
      simp only [List.length_append, List.length_cons, List.length_nil] at hle
      omega
    have h2 : ¬ (diagMarker <:+: (s ++ ['\n'])) := by
      intro hin
      have hle := hin.length_le
      have hh : diagMarker.length = 15 := by decide
      rw [hh] at hle
      simp only [List.length_append, List.length_cons, List.length_nil] at hle
      omega
    simp [h1, h2]
  refine ⟨hb, hsk, fun cur ls => ?_⟩
  have hne : (s ++ ['\n']) ≠ [] := by simp
  simp only [reassembleAux, if_neg hne, hsk, hb, Bool.false_eq_true, if_false]

/-- C10 (witness): the short-line law evaluated at the all-digit
nine-character line `"123456789"`. -/
theorem C10_short_line_wit :
    isBoundary ("123456789".toList ++ ['\n']) = false
    ∧ skipLine ("123456789".toList ++ ['\n']) = false
    ∧ ∀ (cur : List Char) (ls : List (List Char)),
        reassembleAux (("123456789".toList ++ ['\n']) :: ls) cur
          = reassembleAux ls (cur ++ ("123456789".toList ++ ['\n'])) :=
  C10_short_line "123456789".toList (by decide)

/-- C5 (witness): the amended send-call law evaluated on the concrete
one-record stream. -/
theorem C5_amended_wit :
    (net_output_sends sampleDir [sampleLine1]).1
      = (streamRecords sampleDir [sampleLine1] []).1.map (fun r => jsonDumps r ++ ['\n'])
    ∧ (net_output_sends sampleDir [sampleLine1]).2
      = (streamRecords sampleDir [sampleLine1] []).2 :=
  C5_amended sampleDir [sampleLine1]

/-- C7 (witness): the amended abort law evaluated at the concrete window
`[5, 3]`. -/
theorem C7_amended_wit :
    list_full_paths 5 3 [badTsidxFile, goodTsidxFile] = .error "ValueError" :=
  C7_amended.1 5 3
